import Mathlib

/-!
Verification of the sqlite3 device-keys table of the dendrite keyserver
(file keyserver/storage/sqlite3/device_keys_table.go).

The table keyserver_device_keys is embedded as a list of rows; the four
prepared statements (upsert, point select, batch select, max select) are
embedded as pure functions over that list, translated clause by clause from
the SQL strings and the Go methods that drive them.
-/

namespace Keyserver

/-- A row of the keyserver_device_keys table: columns user_id, device_id,
ts_added_secs, key_json, stream_id (schema deviceKeysSchema). -/
structure Row where
  user_id : String
  device_id : String
  ts_added_secs : Int
  key_json : String
  stream_id : Int
deriving DecidableEq, Repr

/-- The keyserver_device_keys table, in row order. The schema's
UNIQUE (user_id, device_id) constraint is the well-formedness predicate WF
below; it is an invariant of the state, not of the type. -/
abbrev Store := List Row

/-- api.DeviceMessage as used by this file: UserID, DeviceID, KeyJSON
(a byte slice, embedded as a string, matching the string(key.KeyJSON)
conversion on the write path), StreamID. -/
structure DeviceMessage where
  UserID : String
  DeviceID : String
  KeyJSON : String
  StreamID : Int
deriving DecidableEq, Repr

/-- Errors surfaced by the database/sql layer: sql.ErrNoRows from a
QueryRow scan that matched no row, or any other engine error. -/
inductive SqlError where
  | errNoRows
  | other (msg : String)
deriving DecidableEq, Repr

/-- The WHERE user_id=$1 AND device_id=$2 filter (also the ON CONFLICT
(user_id, device_id) uniqueness test). -/
def matchesPair (u d : String) (r : Row) : Bool :=
  r.user_id == u && r.device_id == d

/-- The DO UPDATE SET key_json = $4, stream_id = $5 action applied to a row:
a conflicting row keeps user_id, device_id and ts_added_secs and takes the
new key_json and stream_id; any other row is untouched. -/
def clobberRow (u d kj : String) (sid : Int) (r : Row) : Row :=
  if matchesPair u d r then { r with key_json := kj, stream_id := sid } else r

/-- upsertDeviceKeysSQL: INSERT INTO keyserver_device_keys (user_id,
device_id, ts_added_secs, key_json, stream_id) VALUES ($1,$2,$3,$4,$5)
ON CONFLICT (user_id, device_id) DO UPDATE SET key_json = $4,
stream_id = $5. On conflict only key_json and stream_id are updated;
ts_added_secs keeps the value of the original insert. -/
def upsertDeviceKeys (st : Store) (u d : String) (ts : Int) (kj : String) (sid : Int) : Store :=
  if st.any (matchesPair u d) then
    st.map (clobberRow u d kj sid)
  else
    st ++ [{ user_id := u, device_id := d, ts_added_secs := ts, key_json := kj, stream_id := sid }]

/-- selectDeviceKeysSQL driven by QueryRowContext(...).Scan: SELECT key_json,
stream_id FROM keyserver_device_keys WHERE user_id=$1 AND device_id=$2.
Scan yields sql.ErrNoRows when no row matches. -/
def scanDeviceKeys (st : Store) (u d : String) : Except SqlError (String × Int) :=
  match st.find? (matchesPair u d) with
  | some r => Except.ok (r.key_json, r.stream_id)
  | none => Except.error SqlError.errNoRows

/-- SelectDeviceKeysJSON: for each entry, run the point select; an error
other than sql.ErrNoRows aborts; otherwise the entry's KeyJSON and StreamID
are overwritten with the scanned values, which stay at their zero values
(empty string, 0) when the scan reported sql.ErrNoRows. -/
def SelectDeviceKeysJSON (st : Store) : List DeviceMessage → Except SqlError (List DeviceMessage)
  | [] => Except.ok []
  | k :: ks =>
    match scanDeviceKeys st k.UserID k.DeviceID with
    | Except.error e =>
      if e = SqlError.errNoRows then
        (SelectDeviceKeysJSON st ks).map
          (fun rest => { k with KeyJSON := "", StreamID := 0 } :: rest)
      else
        Except.error e
    | Except.ok v =>
      (SelectDeviceKeysJSON st ks).map
        (fun rest => { k with KeyJSON := v.1, StreamID := v.2 } :: rest)

/-- The api.DeviceMessage assembled for one fetched row in
SelectBatchDeviceKeys: dk.UserID is the queried user, the other fields come
from the scanned columns. -/
def toDeviceMessage (userID : String) (r : Row) : DeviceMessage :=
  { UserID := userID, DeviceID := r.device_id, KeyJSON := r.key_json, StreamID := r.stream_id }

/-- SelectBatchDeviceKeys: run selectBatchDeviceKeysSQL (SELECT device_id,
key_json, stream_id WHERE user_id=$1), then keep a fetched row when
deviceIDMap[dk.DeviceID] holds or len(deviceIDs) == 0. -/
def SelectBatchDeviceKeys (st : Store) (userID : String) (deviceIDs : List String) :
    List DeviceMessage :=
  ((st.filter (fun r => r.user_id == userID)).filter
      (fun r => deviceIDs.contains r.device_id || deviceIDs.isEmpty)).map
    (toDeviceMessage userID)

/-- A *sql.Tx transaction handle; in this embedding a live handle carries the
store state the transaction reads and writes. A nil *sql.Tx is none. -/
abbrev Tx := Store

/-- txn.Stmt(stmt) dereferences the transaction handle unconditionally: on a
nil handle it is a nil-pointer panic, embedded as none. -/
def txStmt (txn : Option Tx) : Option Tx := txn

/-- SelectMaxStreamIDForUser: txn.Stmt(selectMaxStreamForUserStmt) runs
SELECT MAX(stream_id) WHERE user_id=$1 and scans into a sql.NullInt32;
MAX over zero rows is NULL (Valid = false) and streamID keeps its zero
value. The outer none is the nil-pointer panic of txn.Stmt on a nil txn. -/
def SelectMaxStreamIDForUser (txn : Option Tx) (userID : String) : Option Int :=
  match txStmt txn with
  | none => none
  | some st =>
    some ((((st.filter (fun r => r.user_id == userID)).map (fun r => r.stream_id)).max?).getD 0)

/-- Modelled from the spec: sqlutil.TransactionWriter.Do (package
internal/sqlutil, not among the sources under review). Per the spec's
transaction-composition rule, when the caller supplies an ambient
transaction the closure runs within it and the writer neither commits nor
rolls back; when the caller supplies none, the writer opens its own
transaction on the database handle (serialized by the write gate, modelled
separately as WriterGate), commits it when the closure succeeds and rolls it
back when the closure fails. -/
def writerDo (db : Store) (txn : Option Tx) (fn : Tx → Except SqlError Tx) :
    Except SqlError Store :=
  match txn with
  | some t => fn t
  | none => fn db

/-- The loop body of InsertDeviceKeys: for each record, take the wall clock
(time.Now().Unix(), embedded as clock i at the i-th record) and run the
upsert through txn.Stmt; errAt i is the engine's verdict at step i (none =
the Exec succeeds and applies the upsert, some e = the Exec fails with e).
The first failure returns immediately. -/
def insertDeviceKeysLoop (errAt : Nat → Option SqlError) (clock : Nat → Int) :
    Nat → List DeviceMessage → Tx → Except SqlError Tx
  | _, [], st => Except.ok st
  | i, k :: ks, st =>
    match errAt i with
    | some e => Except.error e
    | none =>
      insertDeviceKeysLoop errAt clock (i + 1) ks
        (upsertDeviceKeys st k.UserID k.DeviceID (clock i) k.KeyJSON k.StreamID)

/-- InsertDeviceKeys: s.writer.Do(s.db, txn, loop). -/
def InsertDeviceKeys (errAt : Nat → Option SqlError) (clock : Nat → Int)
    (db : Store) (txn : Option Tx) (keys : List DeviceMessage) : Except SqlError Store :=
  writerDo db txn (insertDeviceKeysLoop errAt clock 0 keys)

/-- An engine run in which every write Exec succeeds. -/
def noWriteFailure : Nat → Option SqlError := fun _ => none

/-- The state transformation of the InsertDeviceKeys loop in a run in which
every Exec succeeds: fold the upserts over the store. -/
def applyUpserts (clock : Nat → Int) : Nat → List DeviceMessage → Store → Store
  | _, [], st => st
  | i, k :: ks, st =>
    applyUpserts clock (i + 1) ks
      (upsertDeviceKeys st k.UserID k.DeviceID (clock i) k.KeyJSON k.StreamID)

/-- The per-entry result of SelectDeviceKeysJSON: the scanned key_json and
stream_id when the point select matched, the zero values otherwise. -/
def fillDeviceKeys (st : Store) (k : DeviceMessage) : DeviceMessage :=
  match scanDeviceKeys st k.UserID k.DeviceID with
  | Except.ok v => { k with KeyJSON := v.1, StreamID := v.2 }
  | Except.error _ => { k with KeyJSON := "", StreamID := 0 }

/-- UNIQUE (user_id, device_id): no two rows of the table share a
(user_id, device_id) pair. -/
def WF (st : Store) : Prop :=
  (st.map (fun r => (r.user_id, r.device_id))).Nodup

/-- Number of live rows for one (user_id, device_id) pair. -/
def countPair (st : Store) (u d : String) : Nat :=
  (st.filter (matchesPair u d)).length

/-- Modelled from the spec: the serialization gate of
sqlutil.TransactionWriter (not among the sources under review), described as
a mutual-exclusion object wrapping a queue of pending write closures,
executed one at a time against a shared handle. pending is the FIFO queue of
writers waiting for the gate; inFlight lists the writers whose transaction
is currently open. -/
structure WriterGate where
  pending : List Nat
  inFlight : List Nat
deriving DecidableEq, Repr

/-- Transitions of the write gate: a writer may be queued at any time; the
head of the queue may start only when no writer is in flight; an in-flight
writer finishes (commit or rollback) and releases the gate. -/
inductive GateStep : WriterGate → WriterGate → Prop where
  | submit (g : WriterGate) (w : Nat) :
      GateStep g { pending := g.pending ++ [w], inFlight := g.inFlight }
  | start (w : Nat) (q : List Nat) :
      GateStep { pending := w :: q, inFlight := [] } { pending := q, inFlight := [w] }
  | finish (w : Nat) (q : List Nat) :
      GateStep { pending := q, inFlight := [w] } { pending := q, inFlight := [] }

/-- Gate states reachable from the idle gate. -/
inductive GateReachable : WriterGate → Prop where
  | init : GateReachable { pending := [], inFlight := [] }
  | step {g g' : WriterGate} : GateReachable g → GateStep g g' → GateReachable g'

instance (st : Store) : Decidable (WF st) := by
  unfold WF
  infer_instance

/-! Helper lemmas about the embedded statements. -/

theorem matchesPair_eq_true {u d : String} {r : Row} :
    matchesPair u d r = true ↔ r.user_id = u ∧ r.device_id = d := by
  simp [matchesPair]

theorem matchesPair_clobberRow (u d u' d' kj : String) (sid : Int) (r : Row) :
    matchesPair u' d' (clobberRow u d kj sid r) = matchesPair u' d' r := by
  unfold clobberRow
  split <;> simp [matchesPair]

theorem clobberRow_key (u d kj : String) (sid : Int) (r : Row) :
    ((clobberRow u d kj sid r).user_id, (clobberRow u d kj sid r).device_id) =
      (r.user_id, r.device_id) := by
  unfold clobberRow
  split <;> rfl

theorem clobberRow_ts (u d kj : String) (sid : Int) (r : Row) :
    (clobberRow u d kj sid r).ts_added_secs = r.ts_added_secs := by
  unfold clobberRow
  split <;> rfl

theorem clobberRow_clobberRow (u d kj : String) (sid : Int) (r : Row) :
    clobberRow u d kj sid (clobberRow u d kj sid r) = clobberRow u d kj sid r := by
  cases hp : matchesPair u d r with
  | true =>
    have hp2 : matchesPair u d { r with key_json := kj, stream_id := sid } = true := by
      simpa [matchesPair] using hp
    simp [clobberRow, hp, hp2]
  | false => simp [clobberRow, hp]

theorem any_matchesPair_map (u d u' d' kj : String) (sid : Int) (st : Store) :
    (st.map (clobberRow u d kj sid)).any (matchesPair u' d') = st.any (matchesPair u' d') := by
  have hfg : (matchesPair u' d' ∘ clobberRow u d kj sid) = matchesPair u' d' :=
    funext (matchesPair_clobberRow u d u' d' kj sid)
  rw [List.any_map, hfg]

theorem find?_matchesPair_map (u d u' d' kj : String) (sid : Int) (st : Store) :
    (st.map (clobberRow u d kj sid)).find? (matchesPair u' d') =
      (st.find? (matchesPair u' d')).map (clobberRow u d kj sid) := by
  have hfg : (matchesPair u' d' ∘ clobberRow u d kj sid) = matchesPair u' d' :=
    funext (matchesPair_clobberRow u d u' d' kj sid)
  rw [List.find?_map, hfg]

theorem scanDeviceKeys_upsert_self (st : Store) (u d : String) (ts : Int) (kj : String)
    (sid : Int) :
    scanDeviceKeys (upsertDeviceKeys st u d ts kj sid) u d = Except.ok (kj, sid) := by
  unfold scanDeviceKeys upsertDeviceKeys
  cases h : st.any (matchesPair u d) with
  | true =>
    simp only [h, if_true]
    rw [find?_matchesPair_map]
    have hex : ∃ x ∈ st, matchesPair u d x = true := List.any_eq_true.mp h
    have hsome : (st.find? (matchesPair u d)).isSome = true := List.find?_isSome.mpr hex
    obtain ⟨r, hr⟩ := Option.isSome_iff_exists.mp hsome
    rw [hr]
    have hpr : matchesPair u d r = true := List.find?_some hr
    simp [clobberRow, hpr]
  | false =>
    simp only [h, Bool.false_eq_true, if_false]
    rw [List.find?_append]
    have hnone : st.find? (matchesPair u d) = none :=
      List.find?_eq_none.mpr (by
        intro x hx
        exact (List.any_eq_false.mp h) x hx)
    rw [hnone]
    simp [matchesPair]

theorem any_upsert_self (st : Store) (u d : String) (ts : Int) (kj : String) (sid : Int) :
    (upsertDeviceKeys st u d ts kj sid).any (matchesPair u d) = true := by
  unfold upsertDeviceKeys
  cases h : st.any (matchesPair u d) with
  | true =>
    simp only [h, if_true]
    rw [any_matchesPair_map]
    exact h
  | false =>
    simp [matchesPair]

theorem countPair_upsert_of_present (st : Store) (u d : String) (ts : Int) (kj : String)
    (sid : Int) (h : st.any (matchesPair u d) = true) :
    countPair (upsertDeviceKeys st u d ts kj sid) u d = countPair st u d := by
  unfold countPair upsertDeviceKeys
  simp only [h, if_true]
  rw [List.filter_map, List.length_map]
  congr 1
  apply List.filter_congr
  intro r _
  exact matchesPair_clobberRow u d u d kj sid r

theorem countPair_eq_zero_of_absent (st : Store) (u d : String)
    (h : st.any (matchesPair u d) = false) : countPair st u d = 0 := by
  unfold countPair
  rw [List.length_eq_zero, List.filter_eq_nil_iff]
  exact List.any_eq_false.mp h

theorem countPair_pos_of_present (st : Store) (u d : String)
    (h : st.any (matchesPair u d) = true) : 1 ≤ countPair st u d := by
  unfold countPair
  obtain ⟨x, hx, hpx⟩ := List.any_eq_true.mp h
  have hmem : x ∈ st.filter (matchesPair u d) := List.mem_filter.mpr ⟨hx, hpx⟩
  have hne : st.filter (matchesPair u d) ≠ [] := by
    intro hnil
    rw [hnil] at hmem
    exact (List.not_mem_nil x) hmem
  exact List.length_pos.mpr hne

theorem WF_countPair_le_one (st : Store) (hwf : WF st) (u d : String) :
    countPair st u d ≤ 1 := by
  unfold countPair
  have hsub : ((st.filter (matchesPair u d)).map (fun r => (r.user_id, r.device_id))).Sublist
      (st.map (fun r => (r.user_id, r.device_id))) :=
    (List.filter_sublist st).map _
  have hnd := List.Nodup.sublist hsub hwf
  rcases hfil : st.filter (matchesPair u d) with _ | ⟨a, t⟩
  · simp
  rcases t with _ | ⟨b, t2⟩
  · simp
  exfalso
  have ha : a ∈ st.filter (matchesPair u d) := by rw [hfil]; exact List.mem_cons_self a _
  have hb : b ∈ st.filter (matchesPair u d) := by
    rw [hfil]
    exact List.mem_cons_of_mem a (List.mem_cons_self b _)
  have hpa := matchesPair_eq_true.mp (List.mem_filter.mp ha).2
  have hpb := matchesPair_eq_true.mp (List.mem_filter.mp hb).2
  rw [hfil] at hnd
  simp only [List.map_cons, List.nodup_cons, List.mem_cons] at hnd
  exact hnd.1 (Or.inl (by rw [hpa.1, hpa.2, hpb.1, hpb.2]))

theorem clobberRow_of_not_match (u d kj : String) (sid : Int) (r : Row)
    (hf : matchesPair u d r = false) : clobberRow u d kj sid r = r := by
  simp [clobberRow, hf]

theorem WF_upsertDeviceKeys (st : Store) (hwf : WF st) (u d : String) (ts : Int) (kj : String)
    (sid : Int) : WF (upsertDeviceKeys st u d ts kj sid) := by
  unfold WF upsertDeviceKeys
  cases h : st.any (matchesPair u d) with
  | true =>
    simp only [h, if_true]
    rw [List.map_map]
    have hkey : ((fun r : Row => (r.user_id, r.device_id)) ∘ clobberRow u d kj sid) =
        (fun r : Row => (r.user_id, r.device_id)) := funext (clobberRow_key u d kj sid)
    rw [hkey]
    exact hwf
  | false =>
    simp only [h, Bool.false_eq_true, if_false]
    rw [List.map_append, List.nodup_append]
    refine ⟨hwf, by simp, ?_⟩
    intro x hx hx2
    simp only [List.map_cons, List.map_nil, List.mem_singleton] at hx2
    obtain ⟨r, hr, hkey⟩ := List.mem_map.mp hx
    have hfr := List.any_eq_false.mp h r hr
    apply hfr
    rw [matchesPair_eq_true]
    rw [hx2] at hkey
    exact ⟨congrArg Prod.fst hkey, congrArg Prod.snd hkey⟩

theorem upsertDeviceKeys_idem (st : Store) (u d : String) (t1 t2 : Int) (kj : String)
    (sid : Int) :
    upsertDeviceKeys (upsertDeviceKeys st u d t1 kj sid) u d t2 kj sid =
      upsertDeviceKeys st u d t1 kj sid := by
  cases h : st.any (matchesPair u d) with
  | true =>
    have h1 : upsertDeviceKeys st u d t1 kj sid = st.map (clobberRow u d kj sid) := by
      unfold upsertDeviceKeys
      simp [h]
    rw [h1]
    have h2 : (st.map (clobberRow u d kj sid)).any (matchesPair u d) = true := by
      rw [any_matchesPair_map]
      exact h
    unfold upsertDeviceKeys
    simp only [h2, if_true]
    rw [List.map_map]
    apply List.map_congr_left
    intro r _
    exact clobberRow_clobberRow u d kj sid r
  | false =>
    have h1 : upsertDeviceKeys st u d t1 kj sid = st ++ [⟨u, d, t1, kj, sid⟩] := by
      unfold upsertDeviceKeys
      simp [h]
    rw [h1]
    have hnew : matchesPair u d (⟨u, d, t1, kj, sid⟩ : Row) = true := by
      simp [matchesPair]
    have h2 : (st ++ [(⟨u, d, t1, kj, sid⟩ : Row)]).any (matchesPair u d) = true := by
      rw [List.any_append]
      simp [hnew]
    unfold upsertDeviceKeys
    simp only [h2, if_true]
    rw [List.map_append]
    congr 1
    · conv_rhs => rw [← List.map_id st]
      apply List.map_congr_left
      intro r hr
      exact clobberRow_of_not_match u d kj sid r
        (Bool.eq_false_iff.mpr (List.any_eq_false.mp h r hr))
    · simp [clobberRow, hnew]

theorem countPair_upsertDeviceKeys (st : Store) (hwf : WF st) (u d : String) (ts : Int)
    (kj : String) (sid : Int) : countPair (upsertDeviceKeys st u d ts kj sid) u d = 1 := by
  cases h : st.any (matchesPair u d) with
  | true =>
    rw [countPair_upsert_of_present st u d ts kj sid h]
    have h1 := countPair_pos_of_present st u d h
    have h2 := WF_countPair_le_one st hwf u d
    omega
  | false =>
    unfold upsertDeviceKeys
    simp only [h, Bool.false_eq_true, if_false]
    unfold countPair
    rw [List.filter_append]
    have h0 : st.filter (matchesPair u d) = [] :=
      List.filter_eq_nil_iff.mpr (List.any_eq_false.mp h)
    rw [h0]
    simp [matchesPair]

theorem writerDo_eq (db : Store) (txn : Option Tx) (fn : Tx → Except SqlError Tx) :
    writerDo db txn fn = fn (txn.getD db) := by
  cases txn <;> rfl

theorem insertDeviceKeysLoop_ok (errAt : Nat → Option SqlError) (clock : Nat → Int) :
    ∀ (keys : List DeviceMessage) (i : Nat) (st : Tx),
      (∀ j, j < keys.length → errAt (i + j) = none) →
      insertDeviceKeysLoop errAt clock i keys st = Except.ok (applyUpserts clock i keys st) := by
  intro keys
  induction keys with
  | nil =>
    intro i st _
    rfl
  | cons k ks ih =>
    intro i st h
    have h0 : errAt i = none := by
      have := h 0 (by simp)
      simpa using this
    unfold insertDeviceKeysLoop applyUpserts
    rw [h0]
    exact ih (i + 1) _ (fun j hj => by
      have := h (j + 1) (by simpa using Nat.succ_lt_succ hj)
      simpa [Nat.add_assoc, Nat.add_comm 1 j] using this)

theorem insertDeviceKeysLoop_error (errAt : Nat → Option SqlError) (clock : Nat → Int)
    (e : SqlError) :
    ∀ (pre : List DeviceMessage) (k : DeviceMessage) (rest : List DeviceMessage) (i : Nat)
      (st : Tx),
      (∀ j, j < pre.length → errAt (i + j) = none) → errAt (i + pre.length) = some e →
      insertDeviceKeysLoop errAt clock i (pre ++ k :: rest) st = Except.error e := by
  intro pre
  induction pre with
  | nil =>
    intro k rest i st _ he
    unfold insertDeviceKeysLoop
    simp only [List.nil_append]
    rw [show errAt i = some e by simpa using he]
  | cons k0 pre ih =>
    intro k rest i st h0 he
    have hi : errAt i = none := by
      have := h0 0 (by simp)
      simpa using this
    unfold insertDeviceKeysLoop
    simp only [List.cons_append]
    rw [hi]
    exact ih k rest (i + 1) _
      (fun j hj => by
        have := h0 (j + 1) (by simpa using Nat.succ_lt_succ hj)
        simpa [Nat.add_assoc, Nat.add_comm 1 j] using this)
      (by
        have : i + (pre.length + 1) = i + 1 + pre.length := by omega
        simpa [List.length_cons, ← this] using he)

theorem scanDeviceKeys_error (st : Store) (u d : String) (e : SqlError)
    (h : scanDeviceKeys st u d = Except.error e) : e = SqlError.errNoRows := by
  unfold scanDeviceKeys at h
  rcases hf : st.find? (matchesPair u d) with _ | r <;> rw [hf] at h
  · exact (Except.error.inj h).symm
  · exact absurd h (by simp)

theorem SelectDeviceKeysJSON_eq (st : Store) (keys : List DeviceMessage) :
    SelectDeviceKeysJSON st keys = Except.ok (keys.map (fillDeviceKeys st)) := by
  induction keys with
  | nil => rfl
  | cons k ks ih =>
    cases hscan : scanDeviceKeys st k.UserID k.DeviceID with
    | ok v =>
      simp [SelectDeviceKeysJSON, hscan, ih, fillDeviceKeys, Except.map]
    | error e =>
      have he := scanDeviceKeys_error st _ _ e hscan
      subst he
      simp [SelectDeviceKeysJSON, hscan, ih, fillDeviceKeys, Except.map]

theorem InsertDeviceKeys_single (clock : Nat → Int) (db : Store) (k : DeviceMessage) :
    InsertDeviceKeys noWriteFailure clock db none [k] =
      Except.ok (upsertDeviceKeys db k.UserID k.DeviceID (clock 0) k.KeyJSON k.StreamID) := rfl

/-! Claim theorems. -/

/-- C1: last-write-wins clobber. For any well-formed store, after
InsertDeviceKeys of record A = (u, d, kjA, sA) followed by InsertDeviceKeys
of record B = (u, d, kjB, sB), a SelectDeviceKeysJSON point lookup for
(u, d) returns exactly B's KeyJSON and StreamID, and the store holds exactly
one row for the pair: the second upsert replaced, it did not create a second
row. -/
theorem insertDeviceKeys_clobber (st : Store) (hwf : WF st) (u d kjA kjB : String)
    (sA sB : Int) (cA cB : Nat → Int) (qk : String) (qs : Int) :
    ∃ st1 st2 : Store,
      InsertDeviceKeys noWriteFailure cA st none [⟨u, d, kjA, sA⟩] = Except.ok st1 ∧
      InsertDeviceKeys noWriteFailure cB st1 none [⟨u, d, kjB, sB⟩] = Except.ok st2 ∧
      SelectDeviceKeysJSON st2 [⟨u, d, qk, qs⟩] = Except.ok [⟨u, d, kjB, sB⟩] ∧
      countPair st2 u d = 1 := by
  refine ⟨upsertDeviceKeys st u d (cA 0) kjA sA,
    upsertDeviceKeys (upsertDeviceKeys st u d (cA 0) kjA sA) u d (cB 0) kjB sB,
    InsertDeviceKeys_single cA st ⟨u, d, kjA, sA⟩,
    InsertDeviceKeys_single cB _ ⟨u, d, kjB, sB⟩, ?_, ?_⟩
  · rw [SelectDeviceKeysJSON_eq]
    have hscan := scanDeviceKeys_upsert_self (upsertDeviceKeys st u d (cA 0) kjA sA) u d
      (cB 0) kjB sB
    simp [fillDeviceKeys, hscan]
  · exact countPair_upsertDeviceKeys _ (WF_upsertDeviceKeys st hwf u d (cA 0) kjA sA) u d
      (cB 0) kjB sB

theorem insertDeviceKeys_clobber_witness :
    ∃ st1 st2 : Store,
      InsertDeviceKeys noWriteFailure (fun _ => 1) [] none
          [⟨"@alice:hs", "AAA", "keyA", 5⟩] = Except.ok st1 ∧
      InsertDeviceKeys noWriteFailure (fun _ => 2) st1 none
          [⟨"@alice:hs", "AAA", "keyB", 7⟩] = Except.ok st2 ∧
      SelectDeviceKeysJSON st2 [⟨"@alice:hs", "AAA", "stale", 9⟩] =
        Except.ok [⟨"@alice:hs", "AAA", "keyB", 7⟩] ∧
      countPair st2 "@alice:hs" "AAA" = 1 :=
  insertDeviceKeys_clobber [] (by decide) "@alice:hs" "AAA" "keyA" "keyB" 5 7
    (fun _ => 1) (fun _ => 2) "stale" 9

/-- C2, counterexample to the claim as stated: on a conflicting upsert the
stored ts_added_secs is NOT overwritten with the new write's timestamp. With
the clock at 200, upserting over a row stored at timestamp 100 leaves the
row's ts_added_secs at 100, while KeyJSON and StreamID are overwritten. -/
theorem insertDeviceKeys_ts_not_refreshed_cex :
    InsertDeviceKeys noWriteFailure (fun _ => 200) [⟨"@u:hs", "DEV", 100, "oldkey", 1⟩] none
        [⟨"@u:hs", "DEV", "newkey", 2⟩] =
      Except.ok [⟨"@u:hs", "DEV", 100, "newkey", 2⟩] ∧
    (100 : Int) ≠ 200 :=
  ⟨rfl, by decide⟩

/-- C2, amended: on a conflicting upsert for an existing (UserID, DeviceID)
pair, KeyJSON and StreamID are overwritten, but the stored ts_added_secs
keeps the value of the pre-existing row: the ON CONFLICT clause updates only
key_json and stream_id. -/
theorem insertDeviceKeys_conflict_preserves_ts (st : Store) (u d : String) (r : Row)
    (h : st.find? (matchesPair u d) = some r) (clock : Nat → Int) (kj : String) (sid : Int) :
    ∃ st' : Store,
      InsertDeviceKeys noWriteFailure clock st none [⟨u, d, kj, sid⟩] = Except.ok st' ∧
      st'.find? (matchesPair u d) =
        some { user_id := r.user_id, device_id := r.device_id,
               ts_added_secs := r.ts_added_secs, key_json := kj, stream_id := sid } := by
  refine ⟨upsertDeviceKeys st u d (clock 0) kj sid, InsertDeviceKeys_single clock st _, ?_⟩
  have hany : st.any (matchesPair u d) = true :=
    List.any_eq_true.mpr ⟨r, List.mem_of_find?_eq_some h, List.find?_some h⟩
  unfold upsertDeviceKeys
  simp only [hany, if_true]
  rw [find?_matchesPair_map, h]
  have hpr : matchesPair u d r = true := List.find?_some h
  simp [clobberRow, hpr]

theorem insertDeviceKeys_conflict_preserves_ts_witness :
    ∃ st' : Store,
      InsertDeviceKeys noWriteFailure (fun _ => 777) [⟨"@u:hs", "DEV", 100, "oldkey", 1⟩] none
          [⟨"@u:hs", "DEV", "newkey", 2⟩] = Except.ok st' ∧
      st'.find? (matchesPair "@u:hs" "DEV") =
        some { user_id := "@u:hs", device_id := "DEV",
               ts_added_secs := 100, key_json := "newkey", stream_id := 2 } :=
  insertDeviceKeys_conflict_preserves_ts [⟨"@u:hs", "DEV", 100, "oldkey", 1⟩] "@u:hs" "DEV"
    ⟨"@u:hs", "DEV", 100, "oldkey", 1⟩ (by decide) (fun _ => 777) "newkey" 2

/-- C3: SelectDeviceKeysJSON always succeeds (the only per-entry scan
failure, sql.ErrNoRows, is swallowed), and every query entry whose
(UserID, DeviceID) pair has no stored row is populated with the empty key
document and a zero StreamID. -/
theorem selectDeviceKeysJSON_missing_pair (st : Store) (keys : List DeviceMessage) :
    SelectDeviceKeysJSON st keys = Except.ok (keys.map (fillDeviceKeys st)) ∧
    ∀ k : DeviceMessage, st.find? (matchesPair k.UserID k.DeviceID) = none →
      fillDeviceKeys st k = { k with KeyJSON := "", StreamID := 0 } := by
  refine ⟨SelectDeviceKeysJSON_eq st keys, ?_⟩
  intro k hk
  unfold fillDeviceKeys scanDeviceKeys
  rw [hk]

theorem selectDeviceKeysJSON_missing_pair_witness :
    fillDeviceKeys [⟨"u1", "d1", 7, "kj", 3⟩] ⟨"u1", "d2", "leftover", 9⟩ =
      { UserID := "u1", DeviceID := "d2", KeyJSON := "", StreamID := 0 } :=
  (selectDeviceKeysJSON_missing_pair [⟨"u1", "d1", 7, "kj", 3⟩] []).2
    ⟨"u1", "d2", "leftover", 9⟩ (by decide)

/-- C4: SelectMaxStreamIDForUser with a live transaction returns the maximum
StreamID over the user's stored rows, and zero when the user has no rows;
the return is always some value (no error surfaces for a user with no
rows). -/
theorem selectMaxStreamIDForUser_max (st : Store) (u : String) :
    ∃ m : Int, SelectMaxStreamIDForUser (some st) u = some m ∧
      (∀ s ∈ (st.filter (fun r => r.user_id == u)).map (fun r => r.stream_id), s ≤ m) ∧
      (st.filter (fun r => r.user_id == u) = [] → m = 0) ∧
      (st.filter (fun r => r.user_id == u) ≠ [] →
        m ∈ (st.filter (fun r => r.user_id == u)).map (fun r => r.stream_id)) := by
  rcases hm : ((st.filter (fun r => r.user_id == u)).map (fun r => r.stream_id)).max? with _ | a
  · have hnil : (st.filter (fun r => r.user_id == u)).map (fun r => r.stream_id) = [] :=
      List.max?_eq_none_iff.mp hm
    have hfil : st.filter (fun r => r.user_id == u) = [] := List.map_eq_nil_iff.mp hnil
    refine ⟨0, ?_, ?_, fun _ => rfl, fun hne => absurd hfil hne⟩
    · show some ((((st.filter (fun r => r.user_id == u)).map
          (fun r => r.stream_id)).max?).getD 0) = some 0
      rw [hm]
      rfl
    · rw [hnil]
      intro s hs
      exact absurd hs (List.not_mem_nil s)
  · refine ⟨a, ?_, ?_, ?_, fun _ => List.max?_mem (fun x y => max_choice x y) hm⟩
    · show some ((((st.filter (fun r => r.user_id == u)).map
          (fun r => r.stream_id)).max?).getD 0) = some a
      rw [hm]
      rfl
    · intro s hs
      exact (List.max?_le_iff (fun _ _ _ => max_le_iff) hm).mp (le_refl a) s hs
    · intro hfil
      rw [hfil] at hm
      exact absurd hm (by simp)

theorem selectMaxStreamIDForUser_max_witness :
    (∃ m : Int, SelectMaxStreamIDForUser (some [⟨"u1", "d1", 7, "kj", 3⟩,
        ⟨"u1", "d2", 8, "kj2", 11⟩]) "u1" = some m ∧
      (∀ s ∈ (([⟨"u1", "d1", 7, "kj", 3⟩, ⟨"u1", "d2", 8, "kj2", 11⟩] : Store).filter
          (fun r => r.user_id == "u1")).map (fun r => r.stream_id), s ≤ m) ∧
      (([⟨"u1", "d1", 7, "kj", 3⟩, ⟨"u1", "d2", 8, "kj2", 11⟩] : Store).filter
          (fun r => r.user_id == "u1") = [] → m = 0) ∧
      (([⟨"u1", "d1", 7, "kj", 3⟩, ⟨"u1", "d2", 8, "kj2", 11⟩] : Store).filter
          (fun r => r.user_id == "u1") ≠ [] →
        m ∈ (([⟨"u1", "d1", 7, "kj", 3⟩, ⟨"u1", "d2", 8, "kj2", 11⟩] : Store).filter
          (fun r => r.user_id == "u1")).map (fun r => r.stream_id))) ∧
    SelectMaxStreamIDForUser (some []) "nobody" = some 0 :=
  ⟨selectMaxStreamIDForUser_max [⟨"u1", "d1", 7, "kj", 3⟩, ⟨"u1", "d2", 8, "kj2", 11⟩] "u1",
   by
    rcases selectMaxStreamIDForUser_max [] "nobody" with ⟨m, hm, _, hz, _⟩
    rw [hm, hz rfl]⟩

/-- C5: SelectBatchDeviceKeys with an empty DeviceID set returns every
stored record of the user; in general a message is returned exactly when it
comes from a stored row of that user whose device is requested (or the set
is empty): requested devices with no stored row are silently omitted and no
placeholder entries exist. -/
theorem selectBatchDeviceKeys_filter (st : Store) (u : String) (ds : List String) :
    (ds = [] → SelectBatchDeviceKeys st u ds =
      (st.filter (fun r => r.user_id == u)).map (toDeviceMessage u)) ∧
    (∀ m : DeviceMessage, m ∈ SelectBatchDeviceKeys st u ds ↔
      ∃ r ∈ st, r.user_id = u ∧ (ds = [] ∨ r.device_id ∈ ds) ∧ m = toDeviceMessage u r) := by
  constructor
  · rintro rfl
    unfold SelectBatchDeviceKeys
    simp
  · intro m
    unfold SelectBatchDeviceKeys
    simp only [List.mem_map, List.mem_filter]
    constructor
    · rintro ⟨r, ⟨⟨hr, hu⟩, hcond⟩, rfl⟩
      refine ⟨r, hr, by simpa using hu, ?_, rfl⟩
      rcases Bool.or_eq_true_iff.mp hcond with hc | hc
      · exact Or.inr (by simpa using hc)
      · exact Or.inl (List.isEmpty_eq_true.mp hc)
    · rintro ⟨r, hr, hu, hcond, rfl⟩
      refine ⟨r, ⟨⟨hr, by simpa using hu⟩, ?_⟩, rfl⟩
      rcases hcond with hc | hc
      · subst hc
        simp
      · simp [hc]

theorem selectBatchDeviceKeys_filter_witness :
    SelectBatchDeviceKeys [⟨"u1", "d1", 7, "kj", 3⟩, ⟨"u2", "dx", 8, "zz", 4⟩] "u1" [] =
      (([⟨"u1", "d1", 7, "kj", 3⟩, ⟨"u2", "dx", 8, "zz", 4⟩] : Store).filter
        (fun r => r.user_id == "u1")).map (toDeviceMessage "u1") :=
  (selectBatchDeviceKeys_filter [⟨"u1", "d1", 7, "kj", 3⟩, ⟨"u2", "dx", 8, "zz", 4⟩]
    "u1" []).1 rfl

/-- C6: upsert idempotence. Running InsertDeviceKeys twice in succession
with the same single record (whatever the wall clock reads at the two
calls) leaves the store exactly as one call does: the conflicting second
upsert rewrites key_json and stream_id with the identical values and does
not touch ts_added_secs. -/
theorem insertDeviceKeys_idempotent (st : Store) (k : DeviceMessage) (c1 c2 : Nat → Int) :
    (InsertDeviceKeys noWriteFailure c1 st none [k]).bind
        (fun st1 => InsertDeviceKeys noWriteFailure c2 st1 none [k]) =
      InsertDeviceKeys noWriteFailure c1 st none [k] := by
  rw [InsertDeviceKeys_single c1 st k]
  show InsertDeviceKeys noWriteFailure c2
      (upsertDeviceKeys st k.UserID k.DeviceID (c1 0) k.KeyJSON k.StreamID) none [k] =
    Except.ok (upsertDeviceKeys st k.UserID k.DeviceID (c1 0) k.KeyJSON k.StreamID)
  rw [InsertDeviceKeys_single c2 _ k]
  rw [upsertDeviceKeys_idem]

/-- C7: the write gate serializes mutating calls: in every state reachable
by the gate's transition system at most one writer is in flight, and when
the caller supplies an ambient transaction, InsertDeviceKeys executes its
loop within that transaction (it does not open one of its own). -/
theorem writeGate_serializes :
    (∀ g : WriterGate, GateReachable g → g.inFlight.length ≤ 1) ∧
    (∀ (errAt : Nat → Option SqlError) (clock : Nat → Int) (db : Store) (t : Tx)
        (keys : List DeviceMessage),
      InsertDeviceKeys errAt clock db (some t) keys =
        insertDeviceKeysLoop errAt clock 0 keys t) := by
  constructor
  · intro g hg
    induction hg with
    | init => simp
    | step _ hstep ih =>
      cases hstep with
      | submit g w => simpa using ih
      | start w q => simp
      | finish w q => simp
  · intro _ _ _ _ _
    rfl

theorem writeGate_serializes_witness :
    ({ pending := [], inFlight := [7] } : WriterGate).inFlight.length ≤ 1 :=
  writeGate_serializes.1 _
    (GateReachable.step
      (GateReachable.step GateReachable.init (GateStep.submit ⟨[], []⟩ 7))
      (GateStep.start 7 []))

/-- C8: if the engine rejects the write of the record at position
pre.length, InsertDeviceKeys returns that error verbatim — for every
possible tail of remaining records, which are therefore never attempted —
and when every record's write succeeds it returns ok. -/
theorem insertDeviceKeys_error_aborts (errAt : Nat → Option SqlError) (clock : Nat → Int)
    (db : Store) (txn : Option Tx) :
    (∀ (pre : List DeviceMessage) (k : DeviceMessage) (rest : List DeviceMessage)
        (e : SqlError),
      (∀ j, j < pre.length → errAt j = none) → errAt pre.length = some e →
      InsertDeviceKeys errAt clock db txn (pre ++ k :: rest) = Except.error e) ∧
    (∀ keys : List DeviceMessage, (∀ j, j < keys.length → errAt j = none) →
      InsertDeviceKeys errAt clock db txn keys =
        Except.ok (applyUpserts clock 0 keys (txn.getD db))) := by
  constructor
  · intro pre k rest e h0 he
    unfold InsertDeviceKeys
    rw [writerDo_eq]
    exact insertDeviceKeysLoop_error errAt clock e pre k rest 0 _
      (fun j hj => by simpa using h0 j hj) (by simpa using he)
  · intro keys h
    unfold InsertDeviceKeys
    rw [writerDo_eq]
    exact insertDeviceKeysLoop_ok errAt clock keys 0 _ (fun j hj => by simpa using h j hj)

theorem insertDeviceKeys_error_aborts_witness :
    InsertDeviceKeys (fun j => if j = 1 then some (SqlError.other "disk full") else none)
        (fun _ => 50) [] none
        [⟨"u1", "d1", "k1", 1⟩, ⟨"u1", "d2", "k2", 2⟩, ⟨"u1", "d3", "k3", 3⟩] =
      Except.error (SqlError.other "disk full") :=
  (insertDeviceKeys_error_aborts (fun j => if j = 1 then some (SqlError.other "disk full")
      else none) (fun _ => 50) [] none).1
    [⟨"u1", "d1", "k1", 1⟩] ⟨"u1", "d2", "k2", 2⟩ [⟨"u1", "d3", "k3", 3⟩]
    (SqlError.other "disk full") (by decide) (by decide)

/-- C9: SelectMaxStreamIDForUser dereferences the supplied transaction
handle unconditionally through txn.Stmt, so a nil transaction crashes (the
none result), while InsertDeviceKeys with a nil transaction falls back to a
self-managed transaction on the database handle instead of crashing. -/
theorem selectMaxStreamIDForUser_nil_txn :
    (∀ u : String, SelectMaxStreamIDForUser none u = none) ∧
    (∀ (errAt : Nat → Option SqlError) (clock : Nat → Int) (db : Store)
        (keys : List DeviceMessage),
      InsertDeviceKeys errAt clock db none keys = insertDeviceKeysLoop errAt clock 0 keys db) :=
  ⟨fun _ => rfl, fun _ _ _ _ => rfl⟩

/-- C10: SelectDeviceKeysJSON rewrites every entry: the returned entry keeps
the query's UserID and DeviceID, and its KeyJSON and StreamID are computed
from the store alone — the stored values when a row matches the pair and
("", 0) otherwise — regardless of the values the entry carried on input. -/
theorem selectDeviceKeysJSON_frame (st : Store) (keys : List DeviceMessage) :
    SelectDeviceKeysJSON st keys = Except.ok (keys.map (fillDeviceKeys st)) ∧
    ∀ k : DeviceMessage,
      (fillDeviceKeys st k).UserID = k.UserID ∧
      (fillDeviceKeys st k).DeviceID = k.DeviceID ∧
      ((fillDeviceKeys st k).KeyJSON, (fillDeviceKeys st k).StreamID) =
        (match st.find? (matchesPair k.UserID k.DeviceID) with
         | some r => (r.key_json, r.stream_id)
         | none => ("", 0)) := by
  refine ⟨SelectDeviceKeysJSON_eq st keys, ?_⟩
  intro k
  unfold fillDeviceKeys scanDeviceKeys
  rcases st.find? (matchesPair k.UserID k.DeviceID) with _ | r <;> simp

end Keyserver
